import Mathlib

/-!
# Verification of the web-ifc FFI marshalling layer

A shallow embedding of the C/C++ marshalling layer of the `engine_web-ifc`
repository: the Buffer Transfer Protocol (`src/ffi/helpers/strdup.cpp`),
the STEP text encode/decode helpers, the query façade and the geometry
flattening/streaming engine (`web-ifc-ffi` implementation file).

Modelling conventions:
* byte buffers are lists of `Nat` (each entry a byte value);
* `double` payloads whose numeric value is only ever copied verbatim are
  carried as `Rat`;
* machine `uint32_t` arithmetic is `Nat` arithmetic reduced `% 2 ^ 32`
  exactly where the C code performs a truncating cast or a wrapping add;
* engine operations that the façade wraps in `try/catch` are oracles of
  type `Except Unit α`; trivially non-throwing getters are pure oracles;
* a C pointer argument that may be null is an `Option`; writing through a
  caller-supplied buffer replaces the overwritten prefix of the list.
-/

/-- Wrap-around modulus of `uint32_t` arithmetic. -/
def U32 : Nat := 2 ^ 32

/-- The `WebIFC_ErrorCode` enumeration of `web-ifc-ffi.h`. -/
inductive WebIFC_ErrorCode where
  | WEBIFC_OK
  | WEBIFC_ERR_INVALID_MODEL
  | WEBIFC_ERR_INVALID_ARGUMENT
  | WEBIFC_ERR_INTERNAL
  | WEBIFC_ERR_OUT_OF_RANGE
deriving DecidableEq, Repr

/-! ## Buffer Transfer Protocol (`src/ffi/helpers/strdup.cpp`)

The fill variants receive a caller-supplied byte buffer (the contents of
the destination storage); the result is the destination contents after the
call.  The caller-capacity obligations of the C comments become
hypotheses of the theorems. -/

/-- `ffi_strdup(const std::string&, char*)`: preflight when `out` is null,
otherwise copy the payload and append a NUL terminator.  Returns the
payload length together with the destination contents after the call. -/
def ffi_strdup (s : List Nat) (out : Option (List Nat)) :
    Nat × Option (List Nat) :=
  match out with
  | none => (s.length, none)
  | some buf => (s.length, some (s ++ [0] ++ buf.drop (s.length + 1)))

/-- `ffi_strdup(const void*, std::size_t, void*)` (raw bytes): preflight
when `out` is null, otherwise copy exactly `len` bytes, no terminator. -/
def ffi_strdup_bytes (src : List Nat) (out : Option (List Nat)) :
    Nat × Option (List Nat) :=
  match out with
  | none => (src.length, none)
  | some buf => (src.length, some (src ++ buf.drop src.length))

/-- `ffi_strdup(const std::string&, char**)` (auto-allocating text
variant).  `out = none` models a null outer pointer (preflight);
`out = some none` models a null inner pointer (auto-allocate);
`out = some (some buf)` models a caller-provided buffer.  `allocOk n`
tells whether `malloc(n)` succeeds.  The second component is the state
of the inner pointer after the call. -/
def ffi_strdup_auto (allocOk : Nat → Bool) (s : List Nat)
    (out : Option (Option (List Nat))) : Nat × Option (Option (List Nat)) :=
  match out with
  | none => (s.length, none)
  | some none =>
      if allocOk (s.length + 1) then (s.length, some (some (s ++ [0])))
      else (0, some none)
  | some (some buf) => (s.length, some (some (s ++ [0] ++ buf.drop (s.length + 1))))

/-- `ffi_memdup(const void*, std::size_t, void**)` (auto-allocating raw
bytes): zero-length payloads perform no allocation and leave the inner
pointer unchanged. -/
def ffi_memdup (allocOk : Nat → Bool) (src : List Nat)
    (out : Option (Option (List Nat))) : Nat × Option (Option (List Nat)) :=
  match out with
  | none => (src.length, none)
  | some none =>
      if src.length = 0 then (0, some none)
      else if allocOk src.length then (src.length, some (some src))
      else (0, some none)
  | some (some buf) => (src.length, some (some (src ++ buf.drop src.length)))

/-! ## STEP text encode/decode (`webifc_encode_text` / `webifc_decode_text`) -/

/-- `webifc_encode_text`: escape each backslash as two backslashes and
each newline as backslash-n; all other characters pass through. -/
def webifc_encode_text : List Char → List Char
  | [] => []
  | c :: rest =>
      if c = '\\' then '\\' :: '\\' :: webifc_encode_text rest
      else if c = '\n' then '\\' :: 'n' :: webifc_encode_text rest
      else c :: webifc_encode_text rest

/-- `webifc_decode_text`: a backslash followed by `n` yields a newline, a
backslash followed by a backslash yields one backslash, anything else is
copied through unchanged. -/
def webifc_decode_text : List Char → List Char
  | [] => []
  | [c] => [c]
  | c :: d :: rest =>
      if c = '\\' ∧ d = 'n' then '\n' :: webifc_decode_text rest
      else if c = '\\' ∧ d = '\\' then '\\' :: webifc_decode_text rest
      else c :: webifc_decode_text (d :: rest)

/-! ## Engine oracle and façade state

The parsing/geometry engine (`ModelManager`, `IfcLoader`,
`IfcGeometryProcessor`) is an external collaborator; the façade only ever
reaches it through the calls below, so one model instance is an oracle
record.  Operations the façade wraps in `try/catch` can throw and are
`Except Unit`-valued; plain getters are pure. -/

/-- One engine geometry object: interleaved vertex lanes (6 doubles per
vertex) and its own local index buffer (`uint32_t` values). -/
structure IfcGeometry where
  vertexData : List Rat
  indexData : List Nat
deriving Repr

/-- `webifc::geometry::VERTEX_FORMAT_SIZE_FLOATS`: 6 lanes (position +
normal) per vertex. -/
def VERTEX_FORMAT_SIZE_FLOATS : Nat := 6

/-- The engine-side view of one model handle, as consumed by the façade. -/
structure EngineModel where
  /-- `g_manager.IsModelOpen(model)` -/
  isOpen : Bool
  /-- `g_manager.GetIfcLoader(model)` is non-null -/
  hasLoader : Bool
  /-- `g_manager.GetGeometryProcessor(model)` is non-null -/
  hasProcessor : Bool
  /-- `processor->GetFlatMesh(id, true).geometries`, as the list of
  `geometryExpressID`s of the placed geometries (may throw) -/
  getFlatMesh : Nat → Except Unit (List Nat)
  /-- `processor->GetGeometry(geometryExpressID)` (may throw) -/
  getGeometry : Nat → Except Unit IfcGeometry
  /-- `loader->GetExpressIDsWithType(typeCode)` (may throw) -/
  getExpressIDsWithType : Nat → Except Unit (List Nat)
  /-- `schemaMgr.GetIfcElementList()` (may throw) -/
  elementTypes : Except Unit (List Nat)
  /-- `loader->GetMaxExpressId()` -/
  maxExpressId : Nat
  /-- `loader->IsValidExpressID(id)` -/
  isValidExpressID : Nat → Bool
  /-- `loader->MoveToLineArgument(expressId, argIndex)` (may throw) -/
  moveToLineArgument : Nat → Nat → Except Unit Unit
  /-- `loader->GetDecodedStringArgument()` (bytes of the decoded string) -/
  getDecodedStringArgument : List Nat
  /-- `loader->GetDoubleArgument()` -/
  getDoubleArgument : Rat
  /-- `loader->GetIntArgument()` -/
  getIntArgument : Int
  /-- `loader->GetRefArgument()` -/
  getRefArgument : Nat
  /-- `loader->GetLineType(expressId)` -/
  getLineType : Nat → Nat
  /-- `loader->GetNoLineArguments(expressId)` -/
  getNoLineArguments : Nat → Nat
  /-- `loader->LoadFile(stream)` (may throw) -/
  loadFile : List Nat → Except Unit Unit
  /-- `loader->SaveFile(stream, orderLinesByExpressID)`: serialized bytes
  (may throw) -/
  saveFile : Bool → Except Unit (List Nat)
  /-- whether any geometry has been evaluated on this model yet -/
  geometryEvaluated : Bool
  /-- the coordination matrix value once geometry has been evaluated -/
  coordinationMatrixAfterEval : List Rat

/-! ## Geometry flattening (shared loop of `webifc_get_flat_mesh`,
`webifc_stream_meshes` and `webifc_stream_all_flat_meshes`)

The loop walks the placed geometries, appends each vertex buffer verbatim,
appends each index buffer rebased by the running vertex offset, and
advances the offset by the geometry's vertex count
(`vertexData.size() / VERTEX_FORMAT_SIZE_FLOATS`).  `idx + vertexOffset`
and the offset accumulation are `uint32_t` operations, hence `% U32`. -/

def flattenFromIds (getG : Nat → Except Unit IfcGeometry) :
    List Nat → Nat → List Rat → List Nat →
    Except Unit (List Rat × List Nat × Nat)
  | [], off, vs, is => .ok (vs, is, off)
  | gid :: rest, off, vs, is =>
      match getG gid with
      | .error e => .error e
      | .ok g =>
          flattenFromIds getG rest
            ((off + g.vertexData.length / VERTEX_FORMAT_SIZE_FLOATS) % U32)
            (vs ++ g.vertexData)
            (is ++ g.indexData.map (fun idx => (idx + off) % U32))

/-- The `WebIFC_FlatMesh` struct filled by the façade: `vertexCount` is the
number of double lanes (`s_vertices.size()` cast to `uint32_t`), and
`indexCount` the number of indices. -/
structure WebIFC_FlatMesh where
  vertices : List Rat
  vertexCount : Nat
  indices : List Nat
  indexCount : Nat
deriving Repr

/-- `webifc_get_flat_mesh`.  `outMeshGiven` models the nullness check of
the `outMesh` pointer; the second component is the mesh written through
it (when any). -/
def webifc_get_flat_mesh (m : EngineModel) (expressId : Nat)
    (outMeshGiven : Bool) : WebIFC_ErrorCode × Option WebIFC_FlatMesh :=
  if outMeshGiven = false then (.WEBIFC_ERR_INVALID_ARGUMENT, none)
  else if m.isOpen = false then (.WEBIFC_ERR_INVALID_MODEL, none)
  else if m.hasProcessor = false then (.WEBIFC_ERR_INVALID_MODEL, none)
  else
    match m.getFlatMesh expressId with
    | .error _ => (.WEBIFC_ERR_INTERNAL, none)
    | .ok placedIds =>
        match flattenFromIds m.getGeometry placedIds 0 [] [] with
        | .error _ => (.WEBIFC_ERR_INTERNAL, none)
        | .ok (vs, is, _) =>
            (.WEBIFC_OK,
             some ⟨vs, vs.length % U32, is, is.length % U32⟩)

/-! ## Streaming -/

/-- One callback invocation: the express id passed to the callback and the
transient mesh it received. -/
abbrev StreamEvent := Nat × WebIFC_FlatMesh

/-- The per-id loop body of `webifc_stream_meshes`: skip ids whose flat
mesh has no placed geometries, flatten the rest, invoke the callback when
both counts are positive, and on an engine exception return the count of
callbacks already completed. -/
def streamLoop (m : EngineModel) :
    List Nat → Nat → List StreamEvent → Nat × List StreamEvent
  | [], streamed, evs => (streamed, evs)
  | eid :: rest, streamed, evs =>
      match m.getFlatMesh eid with
      | .error _ => (streamed, evs)
      | .ok placedIds =>
          if placedIds.isEmpty then streamLoop m rest streamed evs
          else
            match flattenFromIds m.getGeometry placedIds 0 [] [] with
            | .error _ => (streamed, evs)
            | .ok (vs, is, _) =>
                let mesh : WebIFC_FlatMesh :=
                  ⟨vs, vs.length % U32, is, is.length % U32⟩
                if 0 < mesh.vertexCount ∧ 0 < mesh.indexCount then
                  streamLoop m rest (streamed + 1) (evs ++ [(eid, mesh)])
                else streamLoop m rest streamed evs

/-- `webifc_stream_meshes`.  `ids = none` models a null `expressIds`
pointer, otherwise the list holds the `count` ids read from it;
`cbGiven` models the nullness check of the callback.  Returns the
streamed count and the list of callback invocations. -/
def webifc_stream_meshes (m : EngineModel) (ids : Option (List Nat))
    (cbGiven : Bool) : Nat × List StreamEvent :=
  match ids with
  | none => (0, [])
  | some idList =>
      if cbGiven = false then (0, [])
      else if idList.length = 0 then (0, [])
      else if m.isOpen = false then (0, [])
      else if m.hasProcessor = false then (0, [])
      else streamLoop m idList 0 []

/-- The id-collection loop of `webifc_stream_meshes_with_types`: expand
each type code through `GetExpressIDsWithType`, concatenating. -/
def collectIdsForTypes (m : EngineModel) :
    List Nat → List Nat → Except Unit (List Nat)
  | [], acc => .ok acc
  | t :: rest, acc =>
      match m.getExpressIDsWithType t with
      | .error e => .error e
      | .ok lineIds => collectIdsForTypes m rest (acc ++ lineIds)

/-- `webifc_stream_meshes_with_types`: expand the type list to express ids
and delegate to `webifc_stream_meshes`. -/
def webifc_stream_meshes_with_types (m : EngineModel)
    (typeCodes : Option (List Nat)) (cbGiven : Bool) :
    Nat × List StreamEvent :=
  match typeCodes with
  | none => (0, [])
  | some types =>
      if cbGiven = false then (0, [])
      else if types.length = 0 then (0, [])
      else if m.isOpen = false then (0, [])
      else if m.hasLoader = false then (0, [])
      else if m.hasProcessor = false then (0, [])
      else
        match collectIdsForTypes m types [] with
        | .error _ => (0, [])
        | .ok ids => webifc_stream_meshes m (some ids) cbGiven

/-- The engine schema code `webifc::schema::IFCOPENINGELEMENT`.  The
generated schema header is engine-side; the exact code value is opaque to
every property proved here. -/
def IFCOPENINGELEMENT : Nat := 3588315303

/-- The engine schema code `webifc::schema::IFCSPACE`. -/
def IFCSPACE : Nat := 3856911033

/-- The engine schema code `webifc::schema::IFCOPENINGSTANDARDCASE`. -/
def IFCOPENINGSTANDARDCASE : Nat := 3079942009

/-- `webifc_stream_all_meshes`: enumerate the schema element list,
optionally remove the opening/space types, and delegate to
`webifc_stream_meshes_with_types`. -/
def webifc_stream_all_meshes (m : EngineModel) (cbGiven : Bool)
    (skipOpeningsAndSpaces : Bool) : Nat × List StreamEvent :=
  if cbGiven = false then (0, [])
  else if m.isOpen = false then (0, [])
  else if m.hasLoader = false then (0, [])
  else if m.hasProcessor = false then (0, [])
  else
    match m.elementTypes with
    | .error _ => (0, [])
    | .ok elementSet =>
        let types :=
          if skipOpeningsAndSpaces then
            elementSet.filter (fun t =>
              ¬(t = IFCOPENINGELEMENT ∨ t = IFCSPACE ∨
                t = IFCOPENINGSTANDARDCASE))
          else elementSet
        webifc_stream_meshes_with_types m (some types) cbGiven

/-- `webifc_stream_all_flat_meshes`: iterate every express id from 1 to
`GetMaxExpressId()`, skip the invalid ones, and run the same per-id body
as `streamLoop`. -/
def webifc_stream_all_flat_meshes (m : EngineModel) (cbGiven : Bool) :
    Nat × List StreamEvent :=
  if cbGiven = false then (0, [])
  else if m.isOpen = false then (0, [])
  else if m.hasProcessor = false then (0, [])
  else if m.hasLoader = false then (0, [])
  else
    streamLoop m
      ((List.range' 1 m.maxExpressId).filter m.isValidExpressID) 0 []

/-! ## Query/Mutation façade: loaders, savers and argument readers

The second component of each result records whether any loader/processor
operation was invoked (the "engine call" of the validation-order
property); façade-internal registry lookups (`IsModelOpen`,
`GetIfcLoader`) are not engine calls. -/

/-- `webifc_load_step_from_memory`.  `data = none` models a null data
pointer; otherwise the list holds the `length` bytes passed. -/
def webifc_load_step_from_memory (m : EngineModel)
    (data : Option (List Nat)) : WebIFC_ErrorCode × Bool :=
  match data with
  | none => (.WEBIFC_ERR_INVALID_ARGUMENT, false)
  | some bytes =>
      if bytes.length = 0 then (.WEBIFC_ERR_INVALID_ARGUMENT, false)
      else if m.isOpen = false then (.WEBIFC_ERR_INVALID_MODEL, false)
      else if m.hasLoader = false then (.WEBIFC_ERR_INVALID_MODEL, false)
      else
        match m.loadFile bytes with
        | .ok _ => (.WEBIFC_OK, true)
        | .error _ => (.WEBIFC_ERR_INTERNAL, true)

/-- `webifc_save_step_to_memory`: returns the byte count written and the
bytes written into the caller's buffer (`none` when nothing was
written).  `outBufferGiven` models the nullness check of `outBuffer`. -/
def webifc_save_step_to_memory (m : EngineModel) (outBufferGiven : Bool)
    (maxLength : Nat) (orderLinesByExpressID : Bool) :
    Nat × Option (List Nat) :=
  if outBufferGiven = false ∨ maxLength = 0 then (0, none)
  else if m.isOpen = false then (0, none)
  else if m.hasLoader = false then (0, none)
  else
    match m.saveFile orderLinesByExpressID with
    | .error _ => (0, none)
    | .ok outStr =>
        if outStr.length > maxLength then (0, none)
        else (outStr.length % U32, some outStr)

/-- `webifc_get_line_type`: 0 on a closed/unknown handle, otherwise the
loader's line type value. -/
def webifc_get_line_type (m : EngineModel) (expressId : Nat) : Nat :=
  if m.isOpen = false then 0
  else if m.hasLoader = false then 0
  else m.getLineType expressId

/-- `webifc_get_line_argument_count`: 0 on a closed/unknown handle,
otherwise the loader's argument count. -/
def webifc_get_line_argument_count (m : EngineModel) (expressId : Nat) :
    Nat :=
  if m.isOpen = false then 0
  else if m.hasLoader = false then 0
  else m.getNoLineArguments expressId

/-- `move_to_arg` (static helper): invalid-model on a closed handle or a
null loader, out-of-range on an invalid express id or a throwing cursor
move.  The second component records whether a loader operation ran. -/
def move_to_arg (m : EngineModel) (expressId argIndex : Nat) :
    WebIFC_ErrorCode × Bool :=
  if m.isOpen = false then (.WEBIFC_ERR_INVALID_MODEL, false)
  else if m.hasLoader = false then (.WEBIFC_ERR_INVALID_MODEL, false)
  else if m.isValidExpressID expressId = false then
    (.WEBIFC_ERR_OUT_OF_RANGE, true)
  else
    match m.moveToLineArgument expressId argIndex with
    | .ok _ => (.WEBIFC_OK, true)
    | .error _ => (.WEBIFC_ERR_OUT_OF_RANGE, true)

/-- `webifc_get_string_argument`: argument nullness first, then the cursor
move, then a capacity check; on success the decoded bytes plus NUL are
written into the caller's buffer (third component). -/
def webifc_get_string_argument (m : EngineModel) (expressId argIndex : Nat)
    (outBufferGiven : Bool) (maxLen : Nat) :
    WebIFC_ErrorCode × Bool × Option (List Nat) :=
  if outBufferGiven = false ∨ maxLen = 0 then
    (.WEBIFC_ERR_INVALID_ARGUMENT, false, none)
  else
    let r := move_to_arg m expressId argIndex
    if r.1 ≠ .WEBIFC_OK then (r.1, r.2, none)
    else
      let decoded := m.getDecodedStringArgument
      if decoded.length + 1 > maxLen then
        (.WEBIFC_ERR_INVALID_ARGUMENT, true, none)
      else (.WEBIFC_OK, true, some (decoded ++ [0]))

/-- `webifc_get_double_argument`: argument nullness first, then the cursor
move; on success the loader's double is written through `outValue`. -/
def webifc_get_double_argument (m : EngineModel) (expressId argIndex : Nat)
    (outValueGiven : Bool) : WebIFC_ErrorCode × Bool × Option Rat :=
  if outValueGiven = false then (.WEBIFC_ERR_INVALID_ARGUMENT, false, none)
  else
    let r := move_to_arg m expressId argIndex
    if r.1 ≠ .WEBIFC_OK then (r.1, r.2, none)
    else (.WEBIFC_OK, true, some m.getDoubleArgument)

/-- `webifc_get_int_argument`. -/
def webifc_get_int_argument (m : EngineModel) (expressId argIndex : Nat)
    (outValueGiven : Bool) : WebIFC_ErrorCode × Bool × Option Int :=
  if outValueGiven = false then (.WEBIFC_ERR_INVALID_ARGUMENT, false, none)
  else
    let r := move_to_arg m expressId argIndex
    if r.1 ≠ .WEBIFC_OK then (r.1, r.2, none)
    else (.WEBIFC_OK, true, some m.getIntArgument)

/-- `webifc_get_ref_argument`. -/
def webifc_get_ref_argument (m : EngineModel) (expressId argIndex : Nat)
    (outValueGiven : Bool) : WebIFC_ErrorCode × Bool × Option Nat :=
  if outValueGiven = false then (.WEBIFC_ERR_INVALID_ARGUMENT, false, none)
  else
    let r := move_to_arg m expressId argIndex
    if r.1 ≠ .WEBIFC_OK then (r.1, r.2, none)
    else (.WEBIFC_OK, true, some m.getRefArgument)

/-! ## Coordination matrix -/

/-- The 4×4 identity matrix, row-major. -/
def identityMatrix16 : List Rat :=
  [1, 0, 0, 0, 0, 1, 0, 0, 0, 0, 1, 0, 0, 0, 0, 1]

/-- Modelled from the spec: `IfcGeometryProcessor::GetFlatCoordinationMatrix`
is engine code not present in this repository; per the spec, a model on
which no geometry has been evaluated yet reports the identity
coordination matrix, and geometry evaluation may replace it. -/
def GetFlatCoordinationMatrix (m : EngineModel) : List Rat :=
  if m.geometryEvaluated then m.coordinationMatrixAfterEval
  else identityMatrix16

/-- `webifc_get_coordination_matrix`: false on a null output pointer, a
closed handle or a null processor, otherwise the 16 matrix values are
copied into the caller's buffer. -/
def webifc_get_coordination_matrix (m : EngineModel)
    (outMatrixGiven : Bool) : Bool × Option (List Rat) :=
  if outMatrixGiven = false then (false, none)
  else if m.isOpen = false then (false, none)
  else if m.hasProcessor = false then (false, none)
  else (true, some (GetFlatCoordinationMatrix m))

/-- `GetCoordinationMatrix` of `web_ifc_wasm.cpp`: the processor's flat
coordination matrix when the model is open, a value-initialized (all
zero) array otherwise. -/
def GetCoordinationMatrix (m : EngineModel) : List Rat :=
  if m.isOpen then GetFlatCoordinationMatrix m
  else List.replicate 16 0

/-! ## Derived quantities and preconditions -/

/-- The vertex count a geometry lookup contributes: its vertex-data length
divided by the 6-lane per-vertex width (0 for a throwing lookup). -/
def vcOf : Except Unit IfcGeometry → Nat
  | .ok g => g.vertexData.length / VERTEX_FORMAT_SIZE_FLOATS
  | .error _ => 0

/-- A geometry lookup is locally well-indexed when every index in its own
index buffer is strictly below its own vertex count. -/
def geomLocalOk : Except Unit IfcGeometry → Prop
  | .ok g => ∀ idx ∈ g.indexData,
      idx < g.vertexData.length / VERTEX_FORMAT_SIZE_FLOATS
  | .error _ => True

/-- The total vertex count of an element's flattened output buffer: the
sum of the per-placed-geometry vertex counts. -/
def elementTotalVertexCount (m : EngineModel) (expressId : Nat) : Nat :=
  match m.getFlatMesh expressId with
  | .ok placedIds =>
      (placedIds.map (fun gid => vcOf (m.getGeometry gid))).sum
  | .error _ => 0

/-! ## Concrete witness models -/

/-- A sample geometry with one vertex (6 lanes). -/
def sampleGeomA : IfcGeometry :=
  ⟨[1, 2, 3, 4, 5, 6], [0, 0, 0]⟩

/-- A sample geometry with two vertices (12 lanes). -/
def sampleGeomB : IfcGeometry :=
  ⟨[7, 8, 9, 10, 11, 12, 13, 14, 15, 16, 17, 18], [0, 1, 1]⟩

/-- A concrete open model: element 5 carries two placed geometries,
element 6 makes the engine throw, every other element is geometry-free;
no express id is valid and no geometry has been evaluated. -/
def baseModel : EngineModel where
  isOpen := true
  hasLoader := true
  hasProcessor := true
  getFlatMesh := fun eid =>
    if eid = 5 then .ok [10, 11]
    else if eid = 6 then .error ()
    else .ok []
  getGeometry := fun gid =>
    if gid = 10 then .ok sampleGeomA
    else if gid = 11 then .ok sampleGeomB
    else .error ()
  getExpressIDsWithType := fun _ => .ok []
  elementTypes := .ok []
  maxExpressId := 0
  isValidExpressID := fun _ => false
  moveToLineArgument := fun _ _ => .ok ()
  getDecodedStringArgument := []
  getDoubleArgument := 0
  getIntArgument := 0
  getRefArgument := 0
  getLineType := fun _ => 0
  getNoLineArguments := fun _ => 0
  loadFile := fun _ => .ok ()
  saveFile := fun _ => .ok [72, 73]
  geometryEvaluated := false
  coordinationMatrixAfterEval := List.replicate 16 0

/-- `baseModel` with the handle closed. -/
def closedModel : EngineModel :=
  { baseModel with isOpen := false }

/-! ## Flattening lemmas -/

/-- Every index the flattening loop appends is a `uint32_t` value, hence
below `U32`; indices already in the accumulator are untouched. -/
theorem flattenFromIds_out_mem (getG : Nat → Except Unit IfcGeometry) :
    ∀ (pids : List Nat) (off : Nat) (vs : List Rat) (is : List Nat)
      (vs' : List Rat) (is' : List Nat) (off' : Nat),
      flattenFromIds getG pids off vs is = .ok (vs', is', off') →
      ∀ o ∈ is', o ∈ is ∨ o < U32 := by
  intro pids
  induction pids with
  | nil =>
      intro off vs is vs' is' off' h o ho
      simp only [flattenFromIds, Except.ok.injEq, Prod.mk.injEq] at h
      obtain ⟨-, h2, -⟩ := h
      subst h2
      exact Or.inl ho
  | cons gid rest ih =>
      intro off vs is vs' is' off' h o ho
      rw [flattenFromIds] at h
      cases hg : getG gid with
      | error e => rw [hg] at h; exact absurd h (by simp)
      | ok g =>
          rw [hg] at h
          rcases ih _ _ _ _ _ _ h o ho with hmem | hlt
          · rcases List.mem_append.mp hmem with h1 | h2
            · exact Or.inl h1
            · right
              obtain ⟨idx, -, rfl⟩ := List.mem_map.mp h2
              exact Nat.mod_lt _ (by norm_num [U32])
          · exact Or.inr hlt

/-- When the running offset plus the remaining total vertex count stays
below `U32`, no rebased index wraps, and every appended index is strictly
below offset + total. -/
theorem flattenFromIds_out_bound (getG : Nat → Except Unit IfcGeometry) :
    ∀ (pids : List Nat) (off : Nat) (vs : List Rat) (is : List Nat)
      (vs' : List Rat) (is' : List Nat) (off' : Nat),
      (∀ gid ∈ pids, geomLocalOk (getG gid)) →
      off + (pids.map (fun gid => vcOf (getG gid))).sum < U32 →
      flattenFromIds getG pids off vs is = .ok (vs', is', off') →
      ∀ o ∈ is',
        o ∈ is ∨ o < off + (pids.map (fun gid => vcOf (getG gid))).sum := by
  intro pids
  induction pids with
  | nil =>
      intro off vs is vs' is' off' _ _ h o ho
      simp only [flattenFromIds, Except.ok.injEq, Prod.mk.injEq] at h
      obtain ⟨-, h2, -⟩ := h
      subst h2
      exact Or.inl ho
  | cons gid rest ih =>
      intro off vs is vs' is' off' hloc hbound h o ho
      rw [flattenFromIds] at h
      cases hg : getG gid with
      | error e => rw [hg] at h; exact absurd h (by simp)
      | ok g =>
          rw [hg] at h
          dsimp only at h
          have hv : vcOf (getG gid) =
              g.vertexData.length / VERTEX_FORMAT_SIZE_FLOATS := by
            rw [hg]; rfl
          have hsum :
              (List.map (fun gid => vcOf (getG gid)) (gid :: rest)).sum =
              g.vertexData.length / VERTEX_FORMAT_SIZE_FLOATS +
                (List.map (fun gid => vcOf (getG gid)) rest).sum := by
            simp [hv]
          rw [hsum] at hbound ⊢
          have hoffv :
              (off + g.vertexData.length / VERTEX_FORMAT_SIZE_FLOATS) % U32 =
              off + g.vertexData.length / VERTEX_FORMAT_SIZE_FLOATS := by
            apply Nat.mod_eq_of_lt
            omega
          rw [hoffv] at h
          have hbound2 :
              off + g.vertexData.length / VERTEX_FORMAT_SIZE_FLOATS +
                (List.map (fun gid => vcOf (getG gid)) rest).sum < U32 := by
            omega
          rcases ih _ _ _ _ _ _ (fun x hx => hloc x (List.mem_cons_of_mem _ hx))
              hbound2 h o ho with hmem | hlt
          · rcases List.mem_append.mp hmem with h1 | h2
            · exact Or.inl h1
            · right
              obtain ⟨idx, hidx, rfl⟩ := List.mem_map.mp h2
              have hidxlt : idx <
                  g.vertexData.length / VERTEX_FORMAT_SIZE_FLOATS := by
                have := hloc gid (List.mem_cons_self _ _)
                rw [hg] at this
                exact this idx hidx
              have : idx + off < U32 := by omega
              rw [Nat.mod_eq_of_lt this]
              omega
          · right
            omega

/-- Core index-rebasing invariant: starting from empty buffers, every
index the flattening loop produces is strictly below the sum of the
per-geometry vertex counts. -/
theorem flattenFromIds_indices_lt_total (getG : Nat → Except Unit IfcGeometry)
    (pids : List Nat) (hloc : ∀ gid ∈ pids, geomLocalOk (getG gid))
    (vs' : List Rat) (is' : List Nat) (off' : Nat)
    (h : flattenFromIds getG pids 0 [] [] = .ok (vs', is', off')) :
    ∀ o ∈ is', o < (pids.map (fun gid => vcOf (getG gid))).sum := by
  intro o ho
  rcases Nat.lt_or_ge ((pids.map (fun gid => vcOf (getG gid))).sum) U32
      with hS | hS
  · rcases flattenFromIds_out_bound getG pids 0 [] [] vs' is' off' hloc
        (by omega) h o ho with h1 | h2
    · exact absurd h1 (List.not_mem_nil o)
    · omega
  · rcases flattenFromIds_out_mem getG pids 0 [] [] vs' is' off' h o ho
        with h1 | h2
    · exact absurd h1 (List.not_mem_nil o)
    · omega

/-! ## Streaming loop lemmas -/

/-- The streamed counter tracks the callback-event list exactly. -/
theorem streamLoop_count (m : EngineModel) :
    ∀ (ids : List Nat) (s : Nat) (evs : List StreamEvent) (n : Nat)
      (evs' : List StreamEvent),
      streamLoop m ids s evs = (n, evs') → s = evs.length →
      n = evs'.length := by
  intro ids
  induction ids with
  | nil =>
      intro s evs n evs' h hs
      simp only [streamLoop, Prod.mk.injEq] at h
      obtain ⟨h1, h2⟩ := h
      subst h1; subst h2; exact hs
  | cons eid rest ih =>
      intro s evs n evs' h hs
      rw [streamLoop] at h
      cases hf : m.getFlatMesh eid with
      | error e =>
          rw [hf] at h; dsimp only at h
          simp only [Prod.mk.injEq] at h
          obtain ⟨h1, h2⟩ := h
          subst h1; subst h2; exact hs
      | ok pids =>
          rw [hf] at h; dsimp only at h
          by_cases hemp : pids.isEmpty
          · rw [if_pos hemp] at h
            exact ih _ _ _ _ h hs
          · rw [if_neg hemp] at h
            cases hfl : flattenFromIds m.getGeometry pids 0 [] [] with
            | error e =>
                rw [hfl] at h; dsimp only at h
                simp only [Prod.mk.injEq] at h
                obtain ⟨h1, h2⟩ := h
                subst h1; subst h2; exact hs
            | ok trip =>
                obtain ⟨vs, is, off⟩ := trip
                rw [hfl] at h; dsimp only at h
                by_cases hpos : 0 < vs.length % U32 ∧ 0 < is.length % U32
                · rw [if_pos hpos] at h
                  refine ih _ _ _ _ h ?_
                  simp [hs]
                · rw [if_neg hpos] at h
                  exact ih _ _ _ _ h hs

/-- Every event the stream loop emits comes from an element whose flat
mesh had placed geometries, and — under the local index precondition —
its mesh indices are strictly below that element's total vertex count. -/
theorem streamLoop_events (m : EngineModel)
    (H : ∀ gid, geomLocalOk (m.getGeometry gid)) :
    ∀ (ids : List Nat) (s : Nat) (evs : List StreamEvent) (n : Nat)
      (evs' : List StreamEvent),
      streamLoop m ids s evs = (n, evs') →
      ∀ ev ∈ evs', ev ∈ evs ∨
        ((∃ pids, m.getFlatMesh ev.1 = .ok pids ∧ pids ≠ []) ∧
         ∀ o ∈ ev.2.indices, o < elementTotalVertexCount m ev.1) := by
  intro ids
  induction ids with
  | nil =>
      intro s evs n evs' h ev hev
      simp only [streamLoop, Prod.mk.injEq] at h
      obtain ⟨-, h2⟩ := h
      subst h2; exact Or.inl hev
  | cons eid rest ih =>
      intro s evs n evs' h ev hev
      rw [streamLoop] at h
      cases hf : m.getFlatMesh eid with
      | error e =>
          rw [hf] at h; dsimp only at h
          simp only [Prod.mk.injEq] at h
          obtain ⟨-, h2⟩ := h
          subst h2; exact Or.inl hev
      | ok pids =>
          rw [hf] at h; dsimp only at h
          by_cases hemp : pids.isEmpty
          · rw [if_pos hemp] at h
            exact ih _ _ _ _ h ev hev
          · rw [if_neg hemp] at h
            cases hfl : flattenFromIds m.getGeometry pids 0 [] [] with
            | error e =>
                rw [hfl] at h; dsimp only at h
                simp only [Prod.mk.injEq] at h
                obtain ⟨-, h2⟩ := h
                subst h2; exact Or.inl hev
            | ok trip =>
                obtain ⟨vs, is, off⟩ := trip
                rw [hfl] at h; dsimp only at h
                have hstep : ∀ ev2 ∈ evs ++
                    [(eid, (⟨vs, vs.length % U32, is, is.length % U32⟩ :
                      WebIFC_FlatMesh))],
                    ev2 ∈ evs ∨
                    ((∃ pids2, m.getFlatMesh ev2.1 = .ok pids2 ∧
                        pids2 ≠ []) ∧
                     ∀ o ∈ ev2.2.indices,
                       o < elementTotalVertexCount m ev2.1) := by
                  intro ev2 hev2
                  rcases List.mem_append.mp hev2 with h1 | h2
                  · exact Or.inl h1
                  · right
                    have hev2eq :
                        ev2 = (eid, (⟨vs, vs.length % U32, is,
                          is.length % U32⟩ : WebIFC_FlatMesh)) := by
                      simpa using h2
                    subst hev2eq
                    constructor
                    · exact ⟨pids, hf, by simpa [List.isEmpty_iff] using hemp⟩
                    · intro o ho
                      have htot : elementTotalVertexCount m eid =
                          (pids.map (fun gid => vcOf (m.getGeometry gid))).sum := by
                        unfold elementTotalVertexCount
                        rw [hf]
                      rw [htot]
                      exact flattenFromIds_indices_lt_total m.getGeometry
                        pids (fun gid _ => H gid) vs is off hfl o ho
                by_cases hpos : 0 < vs.length % U32 ∧ 0 < is.length % U32
                · rw [if_pos hpos] at h
                  rcases ih _ _ _ _ h ev hev with h1 | h2
                  · exact hstep ev h1
                  · exact Or.inr h2
                · rw [if_neg hpos] at h
                  exact ih _ _ _ _ h ev hev

/-! ## API-level streaming helper lemmas -/

/-- `webifc_stream_meshes` returns exactly its callback-invocation count. -/
theorem webifc_stream_meshes_count (m : EngineModel)
    (ids : Option (List Nat)) (cb : Bool) :
    (webifc_stream_meshes m ids cb).1 =
      (webifc_stream_meshes m ids cb).2.length := by
  unfold webifc_stream_meshes
  cases ids with
  | none => rfl
  | some idList =>
      dsimp only
      split
      · rfl
      · split
        · rfl
        · split
          · rfl
          · split
            · rfl
            · rcases hsl : streamLoop m idList 0 [] with ⟨n, evs⟩
              exact streamLoop_count m idList 0 [] n evs hsl rfl

/-- `webifc_stream_meshes_with_types` returns exactly its
callback-invocation count. -/
theorem webifc_stream_meshes_with_types_count (m : EngineModel)
    (typeCodes : Option (List Nat)) (cb : Bool) :
    (webifc_stream_meshes_with_types m typeCodes cb).1 =
      (webifc_stream_meshes_with_types m typeCodes cb).2.length := by
  unfold webifc_stream_meshes_with_types
  cases typeCodes with
  | none => rfl
  | some types =>
      dsimp only
      split
      · rfl
      · split
        · rfl
        · split
          · rfl
          · split
            · rfl
            · split
              · rfl
              · cases hcol : collectIdsForTypes m types [] with
                | error e => rfl
                | ok ids => exact webifc_stream_meshes_count m (some ids) cb

/-- `webifc_stream_all_meshes` returns exactly its callback-invocation
count. -/
theorem webifc_stream_all_meshes_count (m : EngineModel) (cb skip : Bool) :
    (webifc_stream_all_meshes m cb skip).1 =
      (webifc_stream_all_meshes m cb skip).2.length := by
  unfold webifc_stream_all_meshes
  split
  · rfl
  · split
    · rfl
    · split
      · rfl
      · split
        · rfl
        · cases hel : m.elementTypes with
          | error e => rfl
          | ok elementSet =>
              dsimp only
              exact webifc_stream_meshes_with_types_count m _ cb

/-- `webifc_stream_all_flat_meshes` returns exactly its
callback-invocation count. -/
theorem webifc_stream_all_flat_meshes_count (m : EngineModel) (cb : Bool) :
    (webifc_stream_all_flat_meshes m cb).1 =
      (webifc_stream_all_flat_meshes m cb).2.length := by
  unfold webifc_stream_all_flat_meshes
  split
  · rfl
  · split
    · rfl
    · split
      · rfl
      · split
        · rfl
        · rcases hsl : streamLoop m
              ((List.range' 1 m.maxExpressId).filter m.isValidExpressID)
              0 [] with ⟨n, evs⟩
          exact streamLoop_count m _ 0 [] n evs hsl rfl

/-- Events of `webifc_stream_meshes` under the local index precondition:
every mesh handed to the callback respects the rebased index bound, and
its element had placed geometries. -/
theorem webifc_stream_meshes_events (m : EngineModel)
    (H : ∀ gid, geomLocalOk (m.getGeometry gid))
    (ids : Option (List Nat)) (cb : Bool) (n : Nat)
    (evs : List StreamEvent)
    (h : webifc_stream_meshes m ids cb = (n, evs)) :
    ∀ ev ∈ evs,
      ((∃ pids, m.getFlatMesh ev.1 = .ok pids ∧ pids ≠ []) ∧
       ∀ o ∈ ev.2.indices, o < elementTotalVertexCount m ev.1) := by
  intro ev hev
  unfold webifc_stream_meshes at h
  cases ids with
  | none =>
      simp only [Prod.mk.injEq] at h
      obtain ⟨-, h2⟩ := h
      subst h2; exact absurd hev (List.not_mem_nil ev)
  | some idList =>
      dsimp only at h
      split at h
      · simp only [Prod.mk.injEq] at h
        obtain ⟨-, h2⟩ := h
        subst h2; exact absurd hev (List.not_mem_nil ev)
      · split at h
        · simp only [Prod.mk.injEq] at h
          obtain ⟨-, h2⟩ := h
          subst h2; exact absurd hev (List.not_mem_nil ev)
        · split at h
          · simp only [Prod.mk.injEq] at h
            obtain ⟨-, h2⟩ := h
            subst h2; exact absurd hev (List.not_mem_nil ev)
          · split at h
            · simp only [Prod.mk.injEq] at h
              obtain ⟨-, h2⟩ := h
              subst h2; exact absurd hev (List.not_mem_nil ev)
            · rcases streamLoop_events m H idList 0 [] n evs h ev hev
                  with h1 | h2
              · exact absurd h1 (List.not_mem_nil ev)
              · exact h2

/-- Events of `webifc_stream_meshes_with_types` respect the same bound. -/
theorem webifc_stream_meshes_with_types_events (m : EngineModel)
    (H : ∀ gid, geomLocalOk (m.getGeometry gid))
    (typeCodes : Option (List Nat)) (cb : Bool) (n : Nat)
    (evs : List StreamEvent)
    (h : webifc_stream_meshes_with_types m typeCodes cb = (n, evs)) :
    ∀ ev ∈ evs,
      ((∃ pids, m.getFlatMesh ev.1 = .ok pids ∧ pids ≠ []) ∧
       ∀ o ∈ ev.2.indices, o < elementTotalVertexCount m ev.1) := by
  intro ev hev
  unfold webifc_stream_meshes_with_types at h
  cases typeCodes with
  | none =>
      simp only [Prod.mk.injEq] at h
      obtain ⟨-, h2⟩ := h
      subst h2; exact absurd hev (List.not_mem_nil ev)
  | some types =>
      dsimp only at h
      split at h
      · simp only [Prod.mk.injEq] at h
        obtain ⟨-, h2⟩ := h
        subst h2; exact absurd hev (List.not_mem_nil ev)
      · split at h
        · simp only [Prod.mk.injEq] at h
          obtain ⟨-, h2⟩ := h
          subst h2; exact absurd hev (List.not_mem_nil ev)
        · split at h
          · simp only [Prod.mk.injEq] at h
            obtain ⟨-, h2⟩ := h
            subst h2; exact absurd hev (List.not_mem_nil ev)
          · split at h
            · simp only [Prod.mk.injEq] at h
              obtain ⟨-, h2⟩ := h
              subst h2; exact absurd hev (List.not_mem_nil ev)
            · split at h
              · simp only [Prod.mk.injEq] at h
                obtain ⟨-, h2⟩ := h
                subst h2; exact absurd hev (List.not_mem_nil ev)
              · cases hcol : collectIdsForTypes m types [] with
                | error e =>
                    rw [hcol] at h; dsimp only at h
                    simp only [Prod.mk.injEq] at h
                    obtain ⟨-, h2⟩ := h
                    subst h2; exact absurd hev (List.not_mem_nil ev)
                | ok ids =>
                    rw [hcol] at h; dsimp only at h
                    exact webifc_stream_meshes_events m H (some ids) cb n
                      evs h ev hev

/-- Events of `webifc_stream_all_meshes` respect the same bound. -/
theorem webifc_stream_all_meshes_events (m : EngineModel)
    (H : ∀ gid, geomLocalOk (m.getGeometry gid))
    (cb skip : Bool) (n : Nat) (evs : List StreamEvent)
    (h : webifc_stream_all_meshes m cb skip = (n, evs)) :
    ∀ ev ∈ evs,
      ((∃ pids, m.getFlatMesh ev.1 = .ok pids ∧ pids ≠ []) ∧
       ∀ o ∈ ev.2.indices, o < elementTotalVertexCount m ev.1) := by
  intro ev hev
  unfold webifc_stream_all_meshes at h
  split at h
  · simp only [Prod.mk.injEq] at h
    obtain ⟨-, h2⟩ := h
    subst h2; exact absurd hev (List.not_mem_nil ev)
  · split at h
    · simp only [Prod.mk.injEq] at h
      obtain ⟨-, h2⟩ := h
      subst h2; exact absurd hev (List.not_mem_nil ev)
    · split at h
      · simp only [Prod.mk.injEq] at h
        obtain ⟨-, h2⟩ := h
        subst h2; exact absurd hev (List.not_mem_nil ev)
      · split at h
        · simp only [Prod.mk.injEq] at h
          obtain ⟨-, h2⟩ := h
          subst h2; exact absurd hev (List.not_mem_nil ev)
        · cases hel : m.elementTypes with
          | error e =>
              rw [hel] at h; dsimp only at h
              simp only [Prod.mk.injEq] at h
              obtain ⟨-, h2⟩ := h
              subst h2; exact absurd hev (List.not_mem_nil ev)
          | ok elementSet =>
              rw [hel] at h; dsimp only at h
              exact webifc_stream_meshes_with_types_events m H _ cb n evs
                h ev hev

/-- Events of `webifc_stream_all_flat_meshes` respect the same bound. -/
theorem webifc_stream_all_flat_meshes_events (m : EngineModel)
    (H : ∀ gid, geomLocalOk (m.getGeometry gid))
    (cb : Bool) (n : Nat) (evs : List StreamEvent)
    (h : webifc_stream_all_flat_meshes m cb = (n, evs)) :
    ∀ ev ∈ evs,
      ((∃ pids, m.getFlatMesh ev.1 = .ok pids ∧ pids ≠ []) ∧
       ∀ o ∈ ev.2.indices, o < elementTotalVertexCount m ev.1) := by
  intro ev hev
  unfold webifc_stream_all_flat_meshes at h
  split at h
  · simp only [Prod.mk.injEq] at h
    obtain ⟨-, h2⟩ := h
    subst h2; exact absurd hev (List.not_mem_nil ev)
  · split at h
    · simp only [Prod.mk.injEq] at h
      obtain ⟨-, h2⟩ := h
      subst h2; exact absurd hev (List.not_mem_nil ev)
    · split at h
      · simp only [Prod.mk.injEq] at h
        obtain ⟨-, h2⟩ := h
        subst h2; exact absurd hev (List.not_mem_nil ev)
      · split at h
        · simp only [Prod.mk.injEq] at h
          obtain ⟨-, h2⟩ := h
          subst h2; exact absurd hev (List.not_mem_nil ev)
        · rcases streamLoop_events m H _ 0 [] n evs h ev hev with h1 | h2
          · exact absurd h1 (List.not_mem_nil ev)
          · exact h2

/-- A mesh successfully produced by `webifc_get_flat_mesh` respects the
rebased index bound (under the local index precondition). -/
theorem webifc_get_flat_mesh_indices (m : EngineModel)
    (H : ∀ gid, geomLocalOk (m.getGeometry gid)) (eid : Nat) (og : Bool)
    (mesh : WebIFC_FlatMesh)
    (h : webifc_get_flat_mesh m eid og = (.WEBIFC_OK, some mesh)) :
    ∀ o ∈ mesh.indices, o < elementTotalVertexCount m eid := by
  unfold webifc_get_flat_mesh at h
  by_cases hog : og = false
  · rw [if_pos hog] at h; simp at h
  · rw [if_neg hog] at h
    by_cases hop : m.isOpen = false
    · rw [if_pos hop] at h; simp at h
    · rw [if_neg hop] at h
      by_cases hpr : m.hasProcessor = false
      · rw [if_pos hpr] at h; simp at h
      · rw [if_neg hpr] at h
        cases hf : m.getFlatMesh eid with
        | error e => rw [hf] at h; simp at h
        | ok pids =>
            rw [hf] at h; dsimp only at h
            cases hfl : flattenFromIds m.getGeometry pids 0 [] [] with
            | error e => rw [hfl] at h; simp at h
            | ok trip =>
                obtain ⟨vs, is, off⟩ := trip
                rw [hfl] at h; dsimp only at h
                simp only [Prod.mk.injEq, Option.some.injEq] at h
                obtain ⟨-, h2⟩ := h
                subst h2
                have htot : elementTotalVertexCount m eid =
                    (pids.map (fun gid => vcOf (m.getGeometry gid))).sum := by
                  unfold elementTotalVertexCount; rw [hf]
                rw [htot]
                exact flattenFromIds_indices_lt_total m.getGeometry pids
                  (fun gid _ => H gid) vs is off hfl

/-- C1: index rebasing invariant of the flattening engine.  Under the
precondition that every geometry's own index buffer holds only indices
strictly below its own vertex count (its vertex-data length divided by
the 6-lane width), every index in the flattened output of
`webifc_get_flat_mesh` and of every streaming call is strictly below the
total vertex count of the output buffer (the sum of the per-geometry
vertex counts), so no output index references a vertex outside the same
output buffer. -/
theorem C1_index_rebasing_invariant (m : EngineModel)
    (H : ∀ gid, geomLocalOk (m.getGeometry gid)) :
    (∀ expressId og mesh,
        webifc_get_flat_mesh m expressId og = (.WEBIFC_OK, some mesh) →
        ∀ o ∈ mesh.indices, o < elementTotalVertexCount m expressId)
    ∧ (∀ ids cb n evs, webifc_stream_meshes m ids cb = (n, evs) →
        ∀ ev ∈ evs, ∀ o ∈ ev.2.indices,
          o < elementTotalVertexCount m ev.1)
    ∧ (∀ types cb n evs,
        webifc_stream_meshes_with_types m types cb = (n, evs) →
        ∀ ev ∈ evs, ∀ o ∈ ev.2.indices,
          o < elementTotalVertexCount m ev.1)
    ∧ (∀ cb skp n evs, webifc_stream_all_meshes m cb skp = (n, evs) →
        ∀ ev ∈ evs, ∀ o ∈ ev.2.indices,
          o < elementTotalVertexCount m ev.1)
    ∧ (∀ cb n evs, webifc_stream_all_flat_meshes m cb = (n, evs) →
        ∀ ev ∈ evs, ∀ o ∈ ev.2.indices,
          o < elementTotalVertexCount m ev.1) := by
  refine ⟨fun eid og mesh h => webifc_get_flat_mesh_indices m H eid og mesh h,
    fun ids cb n evs h ev hev =>
      (webifc_stream_meshes_events m H ids cb n evs h ev hev).2,
    fun types cb n evs h ev hev =>
      (webifc_stream_meshes_with_types_events m H types cb n evs h ev hev).2,
    fun cb skp n evs h ev hev =>
      (webifc_stream_all_meshes_events m H cb skp n evs h ev hev).2,
    fun cb n evs h ev hev =>
      (webifc_stream_all_flat_meshes_events m H cb n evs h ev hev).2⟩

/-- Witness for C1 at a concrete model: the precondition holds for
`baseModel`, and the mesh flattened from element 5 (one 1-vertex and one
2-vertex geometry) has all indices below its total vertex count 3. -/
theorem C1_index_rebasing_invariant_witness :
    (∀ gid, geomLocalOk (baseModel.getGeometry gid)) ∧
    (∀ o ∈ ([0, 0, 0, 1, 2, 2] : List Nat),
      o < elementTotalVertexCount baseModel 5) := by
  have H : ∀ gid, geomLocalOk (baseModel.getGeometry gid) := by
    intro gid
    show geomLocalOk (if gid = 10 then .ok sampleGeomA
      else if gid = 11 then .ok sampleGeomB else .error ())
    by_cases h10 : gid = 10
    · rw [if_pos h10]
      intro idx hidx
      have hidx0 : idx = 0 := by simpa [sampleGeomA] using hidx
      subst hidx0
      decide
    · rw [if_neg h10]
      by_cases h11 : gid = 11
      · rw [if_pos h11]
        intro idx hidx
        have hidx01 : idx = 0 ∨ idx = 1 := by
          simpa [sampleGeomB] using hidx
        rcases hidx01 with h | h <;> subst h <;> decide
      · rw [if_neg h11]; trivial
  exact ⟨H, (C1_index_rebasing_invariant baseModel H).1 5 true
    ⟨sampleGeomA.vertexData ++ sampleGeomB.vertexData, 18,
      [0, 0, 0, 1, 2, 2], 6⟩ rfl⟩

/-- C2: streaming count consistency and abort semantics.  Every streaming
call returns exactly the number of callback invocations it performed,
and an engine exception while handling an element makes the loop stop
and return the count (and events) accumulated so far. -/
theorem C2_stream_count_consistency (m : EngineModel) :
    (∀ ids cb, (webifc_stream_meshes m ids cb).1 =
      (webifc_stream_meshes m ids cb).2.length)
    ∧ (∀ types cb, (webifc_stream_meshes_with_types m types cb).1 =
      (webifc_stream_meshes_with_types m types cb).2.length)
    ∧ (∀ cb skp, (webifc_stream_all_meshes m cb skp).1 =
      (webifc_stream_all_meshes m cb skp).2.length)
    ∧ (∀ cb, (webifc_stream_all_flat_meshes m cb).1 =
      (webifc_stream_all_flat_meshes m cb).2.length)
    ∧ (∀ eid rest s evs, m.getFlatMesh eid = .error () →
        streamLoop m (eid :: rest) s evs = (s, evs)) := by
  refine ⟨webifc_stream_meshes_count m,
    webifc_stream_meshes_with_types_count m,
    webifc_stream_all_meshes_count m,
    webifc_stream_all_flat_meshes_count m, ?_⟩
  intro eid rest s evs herr
  rw [streamLoop, herr]

/-- Witness for C2 at a concrete model: element 6 throws, so a stream
starting at 6 aborts with the zero count accumulated so far, and the
plain count equation holds at a concrete input. -/
theorem C2_stream_count_consistency_witness :
    baseModel.getFlatMesh 6 = .error () ∧
    streamLoop baseModel [6, 5] 0 [] = (0, []) ∧
    (webifc_stream_meshes baseModel (some [5]) true).1 =
      (webifc_stream_meshes baseModel (some [5]) true).2.length := by
  refine ⟨rfl, ?_, (C2_stream_count_consistency baseModel).1 (some [5]) true⟩
  exact (C2_stream_count_consistency baseModel).2.2.2.2 6 [5] 0 [] rfl

/-- An element whose flat mesh has no placed geometries is transparent to
the stream loop: removing it from the id list changes nothing. -/
theorem streamLoop_skip (m : EngineModel) (eid : Nat)
    (hempty : m.getFlatMesh eid = .ok []) :
    ∀ (pre post : List Nat) (s : Nat) (evs : List StreamEvent),
      streamLoop m (pre ++ eid :: post) s evs =
        streamLoop m (pre ++ post) s evs := by
  intro pre
  induction pre with
  | nil =>
      intro post s evs
      simp only [List.nil_append]
      rw [streamLoop, hempty]
      rfl
  | cons p pre ih =>
      intro post s evs
      simp only [List.cons_append]
      rw [streamLoop, streamLoop]
      cases hf : m.getFlatMesh p with
      | error e => rfl
      | ok pids =>
          dsimp only
          by_cases hemp : pids.isEmpty
          · rw [if_pos hemp, if_pos hemp]
            exact ih post s evs
          · rw [if_neg hemp, if_neg hemp]
            cases hfl : flattenFromIds m.getGeometry pids 0 [] [] with
            | error e => rfl
            | ok trip =>
                obtain ⟨vs, is, off⟩ := trip
                dsimp only
                by_cases hpos : 0 < vs.length % U32 ∧ 0 < is.length % U32
                · rw [if_pos hpos, if_pos hpos]
                  exact ih post (s + 1) _
                · rw [if_neg hpos, if_neg hpos]
                  exact ih post s evs

/-- Every event the stream loop emits comes from an element whose flat
mesh had at least one placed geometry. -/
theorem streamLoop_events_nonempty (m : EngineModel) :
    ∀ (ids : List Nat) (s : Nat) (evs : List StreamEvent) (n : Nat)
      (evs' : List StreamEvent),
      streamLoop m ids s evs = (n, evs') →
      ∀ ev ∈ evs', ev ∈ evs ∨
        ∃ pids, m.getFlatMesh ev.1 = .ok pids ∧ pids ≠ [] := by
  intro ids
  induction ids with
  | nil =>
      intro s evs n evs' h ev hev
      simp only [streamLoop, Prod.mk.injEq] at h
      obtain ⟨-, h2⟩ := h
      subst h2; exact Or.inl hev
  | cons eid rest ih =>
      intro s evs n evs' h ev hev
      rw [streamLoop] at h
      cases hf : m.getFlatMesh eid with
      | error e =>
          rw [hf] at h; dsimp only at h
          simp only [Prod.mk.injEq] at h
          obtain ⟨-, h2⟩ := h
          subst h2; exact Or.inl hev
      | ok pids =>
          rw [hf] at h; dsimp only at h
          by_cases hemp : pids.isEmpty
          · rw [if_pos hemp] at h
            exact ih _ _ _ _ h ev hev
          · rw [if_neg hemp] at h
            cases hfl : flattenFromIds m.getGeometry pids 0 [] [] with
            | error e =>
                rw [hfl] at h; dsimp only at h
                simp only [Prod.mk.injEq] at h
                obtain ⟨-, h2⟩ := h
                subst h2; exact Or.inl hev
            | ok trip =>
                obtain ⟨vs, is, off⟩ := trip
                rw [hfl] at h; dsimp only at h
                by_cases hpos : 0 < vs.length % U32 ∧ 0 < is.length % U32
                · rw [if_pos hpos] at h
                  rcases ih _ _ _ _ h ev hev with h1 | h2
                  · rcases List.mem_append.mp h1 with ha | hb
                    · exact Or.inl ha
                    · right
                      have hev2 : ev = (eid, (⟨vs, vs.length % U32, is,
                          is.length % U32⟩ : WebIFC_FlatMesh)) := by
                        simpa using hb
                      subst hev2
                      exact ⟨pids, hf, by simpa [List.isEmpty_iff] using hemp⟩
                  · exact Or.inr h2
                · rw [if_neg hpos] at h
                  exact ih _ _ _ _ h ev hev

/-- `webifc_stream_all_flat_meshes` never emits an event for an element
whose flat mesh has no placed geometries. -/
theorem webifc_stream_all_flat_meshes_skips_empty (m : EngineModel)
    (eid : Nat) (hempty : m.getFlatMesh eid = .ok []) (cb : Bool) :
    ∀ ev ∈ (webifc_stream_all_flat_meshes m cb).2, ev.1 ≠ eid := by
  intro ev hev
  unfold webifc_stream_all_flat_meshes at hev
  by_cases h1 : cb = false
  · rw [if_pos h1] at hev; exact absurd hev (List.not_mem_nil ev)
  · rw [if_neg h1] at hev
    by_cases h2 : m.isOpen = false
    · rw [if_pos h2] at hev; exact absurd hev (List.not_mem_nil ev)
    · rw [if_neg h2] at hev
      by_cases h3 : m.hasProcessor = false
      · rw [if_pos h3] at hev; exact absurd hev (List.not_mem_nil ev)
      · rw [if_neg h3] at hev
        by_cases h4 : m.hasLoader = false
        · rw [if_pos h4] at hev; exact absurd hev (List.not_mem_nil ev)
        · rw [if_neg h4] at hev
          rcases hsl : streamLoop m
              ((List.range' 1 m.maxExpressId).filter m.isValidExpressID)
              0 [] with ⟨n, evs⟩
          rw [hsl] at hev
          rcases streamLoop_events_nonempty m _ 0 [] n evs hsl ev hev
              with ha | hb
          · exact absurd ha (List.not_mem_nil ev)
          · intro heq
            obtain ⟨pids, hpf, hpne⟩ := hb
            rw [heq, hempty] at hpf
            exact hpne (by injection hpf with h; exact h.symm)

/-- C8: an element whose flat mesh has no placed geometries is skipped by
every streaming call (no callback, no count contribution), and a direct
`webifc_get_flat_mesh` request for it succeeds with an entirely empty
mesh rather than a mesh with geometry. -/
theorem C8_empty_geometry_skipped (m : EngineModel) (eid : Nat)
    (hempty : m.getFlatMesh eid = .ok []) :
    (∀ pre post cb,
        webifc_stream_meshes m (some (pre ++ eid :: post)) cb =
          webifc_stream_meshes m (some (pre ++ post)) cb)
    ∧ (∀ cb, ∀ ev ∈ (webifc_stream_all_flat_meshes m cb).2, ev.1 ≠ eid)
    ∧ (m.isOpen = true → m.hasProcessor = true →
        webifc_get_flat_mesh m eid true =
          (.WEBIFC_OK, some ⟨[], 0, [], 0⟩)) := by
  refine ⟨?_, ?_, ?_⟩
  · intro pre post cb
    unfold webifc_stream_meshes
    dsimp only
    by_cases hcb : cb = false
    · rw [if_pos hcb, if_pos hcb]
    · rw [if_neg hcb, if_neg hcb]
      rw [if_neg (by simp : ¬(pre ++ eid :: post).length = 0)]
      by_cases hlen : (pre ++ post).length = 0
      · rw [if_pos hlen]
        have hpre : pre = [] := by
          cases pre with
          | nil => rfl
          | cons a l => simp at hlen
        subst hpre
        have hpost : post = [] := by
          cases post with
          | nil => rfl
          | cons a l => simp at hlen
        subst hpost
        simp only [List.nil_append]
        by_cases hop : m.isOpen = false
        · rw [if_pos hop]
        · rw [if_neg hop]
          by_cases hpr : m.hasProcessor = false
          · rw [if_pos hpr]
          · rw [if_neg hpr]
            rw [streamLoop, hempty]
            rfl
      · rw [if_neg hlen]
        by_cases hop : m.isOpen = false
        · rw [if_pos hop, if_pos hop]
        · rw [if_neg hop, if_neg hop]
          by_cases hpr : m.hasProcessor = false
          · rw [if_pos hpr, if_pos hpr]
          · rw [if_neg hpr, if_neg hpr]
            exact streamLoop_skip m eid hempty pre post 0 []
  · intro cb
    exact webifc_stream_all_flat_meshes_skips_empty m eid hempty cb
  · intro hop hpr
    unfold webifc_get_flat_mesh
    rw [if_neg (by simp : ¬(true = false)), if_neg (by simp [hop]),
      if_neg (by simp [hpr]), hempty]
    rfl

/-- Witness for C8 at a concrete model: element 7 of `baseModel` has no
placed geometries; it is transparent to `webifc_stream_meshes` and its
direct request returns the empty mesh. -/
theorem C8_empty_geometry_skipped_witness :
    baseModel.getFlatMesh 7 = .ok [] ∧
    webifc_stream_meshes baseModel (some ([5] ++ 7 :: [])) true =
      webifc_stream_meshes baseModel (some ([5] ++ [])) true ∧
    webifc_get_flat_mesh baseModel 7 true =
      (.WEBIFC_OK, some ⟨[], 0, [], 0⟩) := by
  have hempty : baseModel.getFlatMesh 7 = .ok [] := rfl
  exact ⟨hempty,
    (C8_empty_geometry_skipped baseModel 7 hempty).1 [5] [] true,
    (C8_empty_geometry_skipped baseModel 7 hempty).2.2 rfl rfl⟩

/-- Counterexample to C3 as stated: on a closed handle with an invalid
(null) output buffer, `webifc_get_string_argument` returns
invalid-argument, not invalid-model — the argument nullness check runs
before the handle check. -/
theorem C3_validation_order_counterexample :
    closedModel.isOpen = false ∧
    webifc_get_string_argument closedModel 1 0 false 8 =
      (.WEBIFC_ERR_INVALID_ARGUMENT, false, none) ∧
    (WebIFC_ErrorCode.WEBIFC_ERR_INVALID_ARGUMENT ≠
      WebIFC_ErrorCode.WEBIFC_ERR_INVALID_MODEL) :=
  ⟨rfl, rfl, by decide⟩

/-- C3 (amended): the façade rejects null/zero operation-specific
arguments first with invalid-argument; once those trivial checks pass,
the handle's open state is checked before any engine call, so a closed
handle with otherwise valid arguments yields invalid-model with no
loader operation invoked (second component `false`). -/
theorem C3_validation_order_amended (m : EngineModel) :
    (∀ eid aidx maxLen,
        webifc_get_string_argument m eid aidx false maxLen =
          (.WEBIFC_ERR_INVALID_ARGUMENT, false, none))
    ∧ (∀ eid aidx og,
        webifc_get_string_argument m eid aidx og 0 =
          (.WEBIFC_ERR_INVALID_ARGUMENT, false, none))
    ∧ (∀ eid aidx maxLen, m.isOpen = false → maxLen ≠ 0 →
        webifc_get_string_argument m eid aidx true maxLen =
          (.WEBIFC_ERR_INVALID_MODEL, false, none))
    ∧ webifc_load_step_from_memory m none =
        (.WEBIFC_ERR_INVALID_ARGUMENT, false)
    ∧ webifc_load_step_from_memory m (some []) =
        (.WEBIFC_ERR_INVALID_ARGUMENT, false)
    ∧ (∀ bytes, bytes ≠ ([] : List Nat) → m.isOpen = false →
        webifc_load_step_from_memory m (some bytes) =
          (.WEBIFC_ERR_INVALID_MODEL, false)) := by
  refine ⟨?_, ?_, ?_, rfl, rfl, ?_⟩
  · intro eid aidx maxLen
    unfold webifc_get_string_argument
    rw [if_pos (Or.inl rfl)]
  · intro eid aidx og
    unfold webifc_get_string_argument
    rw [if_pos (Or.inr rfl)]
  · intro eid aidx maxLen hop hml
    simp [webifc_get_string_argument, move_to_arg, hop, hml]
  · intro bytes hbytes hop
    have hlen : bytes.length ≠ 0 := by
      simpa [List.length_eq_zero] using hbytes
    simp [webifc_load_step_from_memory, hop, hlen]

/-- Witness for the amended C3 at a concrete closed model. -/
theorem C3_validation_order_amended_witness :
    closedModel.isOpen = false ∧ (8 : Nat) ≠ 0 ∧ ([1] : List Nat) ≠ [] ∧
    webifc_get_string_argument closedModel 1 0 true 8 =
      (.WEBIFC_ERR_INVALID_MODEL, false, none) ∧
    webifc_load_step_from_memory closedModel (some [1]) =
      (.WEBIFC_ERR_INVALID_MODEL, false) := by
  refine ⟨rfl, by decide, by decide, ?_, ?_⟩
  · exact (C3_validation_order_amended closedModel).2.2.1 1 0 8 rfl
      (by decide)
  · exact (C3_validation_order_amended closedModel).2.2.2.2.2 [1]
      (by decide) rfl

/-- Counterexample to C4 as stated: the value-argument readers signal a
closed handle with invalid-model but a non-existent element on an open
handle with out-of-range — two different result values. -/
theorem C4_uniform_not_found_counterexample :
    closedModel.isOpen = false ∧
    baseModel.isOpen = true ∧ baseModel.hasLoader = true ∧
    baseModel.isValidExpressID 1 = false ∧
    (webifc_get_double_argument closedModel 1 0 true).1 =
      .WEBIFC_ERR_INVALID_MODEL ∧
    (webifc_get_double_argument baseModel 1 0 true).1 =
      .WEBIFC_ERR_OUT_OF_RANGE ∧
    (WebIFC_ErrorCode.WEBIFC_ERR_INVALID_MODEL ≠
      WebIFC_ErrorCode.WEBIFC_ERR_OUT_OF_RANGE) :=
  ⟨rfl, rfl, rfl, rfl, rfl, rfl, by decide⟩

/-- C4 (amended): every read accessor fails cleanly on a closed handle —
the plain-value accessors return the 0 sentinel, the argument readers
return invalid-model — but the argument readers signal a non-existent
element on an open handle with the distinct out-of-range code, so a
caller must treat every non-OK code as failure rather than rely on one
shared signal. -/
theorem C4_not_found_signals (m : EngineModel) :
    (∀ eid, m.isOpen = false →
        webifc_get_line_type m eid = 0 ∧
        webifc_get_line_argument_count m eid = 0)
    ∧ (∀ eid aidx maxLen, m.isOpen = false → maxLen ≠ 0 →
        (webifc_get_string_argument m eid aidx true maxLen).1 =
          .WEBIFC_ERR_INVALID_MODEL ∧
        (webifc_get_double_argument m eid aidx true).1 =
          .WEBIFC_ERR_INVALID_MODEL ∧
        (webifc_get_int_argument m eid aidx true).1 =
          .WEBIFC_ERR_INVALID_MODEL ∧
        (webifc_get_ref_argument m eid aidx true).1 =
          .WEBIFC_ERR_INVALID_MODEL)
    ∧ (∀ eid aidx maxLen, m.isOpen = true → m.hasLoader = true →
        m.isValidExpressID eid = false → maxLen ≠ 0 →
        (webifc_get_string_argument m eid aidx true maxLen).1 =
          .WEBIFC_ERR_OUT_OF_RANGE ∧
        (webifc_get_double_argument m eid aidx true).1 =
          .WEBIFC_ERR_OUT_OF_RANGE ∧
        (webifc_get_int_argument m eid aidx true).1 =
          .WEBIFC_ERR_OUT_OF_RANGE ∧
        (webifc_get_ref_argument m eid aidx true).1 =
          .WEBIFC_ERR_OUT_OF_RANGE)
    ∧ (WebIFC_ErrorCode.WEBIFC_ERR_INVALID_MODEL ≠
        WebIFC_ErrorCode.WEBIFC_ERR_OUT_OF_RANGE
       ∧ WebIFC_ErrorCode.WEBIFC_ERR_INVALID_MODEL ≠
        WebIFC_ErrorCode.WEBIFC_OK
       ∧ WebIFC_ErrorCode.WEBIFC_ERR_OUT_OF_RANGE ≠
        WebIFC_ErrorCode.WEBIFC_OK) := by
  refine ⟨?_, ?_, ?_, by decide, by decide, by decide⟩
  · intro eid hop
    constructor
    · simp [webifc_get_line_type, hop]
    · simp [webifc_get_line_argument_count, hop]
  · intro eid aidx maxLen hop hml
    refine ⟨?_, ?_, ?_, ?_⟩
    · simp [webifc_get_string_argument, move_to_arg, hop, hml]
    · simp [webifc_get_double_argument, move_to_arg, hop]
    · simp [webifc_get_int_argument, move_to_arg, hop]
    · simp [webifc_get_ref_argument, move_to_arg, hop]
  · intro eid aidx maxLen hop hl hinv hml
    refine ⟨?_, ?_, ?_, ?_⟩
    · simp [webifc_get_string_argument, move_to_arg, hop, hl, hinv, hml]
    · simp [webifc_get_double_argument, move_to_arg, hop, hl, hinv]
    · simp [webifc_get_int_argument, move_to_arg, hop, hl, hinv]
    · simp [webifc_get_ref_argument, move_to_arg, hop, hl, hinv]

/-- Witness for the amended C4 at the concrete closed and open models. -/
theorem C4_not_found_signals_witness :
    closedModel.isOpen = false ∧ baseModel.isOpen = true ∧
    baseModel.hasLoader = true ∧ baseModel.isValidExpressID 2 = false ∧
    webifc_get_line_type closedModel 2 = 0 ∧
    (webifc_get_double_argument closedModel 2 0 true).1 =
      .WEBIFC_ERR_INVALID_MODEL ∧
    (webifc_get_ref_argument baseModel 2 0 true).1 =
      .WEBIFC_ERR_OUT_OF_RANGE := by
  refine ⟨rfl, rfl, rfl, rfl, ?_, ?_, ?_⟩
  · exact ((C4_not_found_signals closedModel).1 2 rfl).1
  · exact ((C4_not_found_signals closedModel).2.1 2 0 8 rfl
      (by decide)).2.1
  · exact ((C4_not_found_signals baseModel).2.2.1 2 0 8 rfl rfl rfl
      (by decide)).2.2.2

/-- C5: preflight/fill agreement of the Buffer Transfer Protocol.  The
preflight call returns the payload size without copying; a fill call
with a destination sized from the preflight writes the payload followed
by a NUL (text) or the payload alone (raw bytes), reproducing the
payload exactly. -/
theorem C5_preflight_fill_agreement (s : List Nat) :
    ffi_strdup s none = (s.length, none)
    ∧ (∀ buf : List Nat, buf.length = s.length + 1 →
        ffi_strdup s (some buf) = (s.length, some (s ++ [0])))
    ∧ (∀ buf : List Nat, buf.length = s.length + 1 →
        ((ffi_strdup s (some buf)).2.getD []).take s.length = s)
    ∧ ffi_strdup_bytes s none = (s.length, none)
    ∧ (∀ buf : List Nat, buf.length = s.length →
        ffi_strdup_bytes s (some buf) = (s.length, some s)) := by
  have hfill : ∀ buf : List Nat, buf.length = s.length + 1 →
      ffi_strdup s (some buf) = (s.length, some (s ++ [0])) := by
    intro buf hbuf
    have hd : buf.drop (s.length + 1) = [] :=
      List.drop_eq_nil_of_le (by omega)
    simp [ffi_strdup, hd]
  refine ⟨rfl, hfill, ?_, rfl, ?_⟩
  · intro buf hbuf
    rw [hfill buf hbuf]
    exact List.take_left s [0]
  · intro buf hbuf
    have hd : buf.drop s.length = [] := List.drop_eq_nil_of_le (by omega)
    simp [ffi_strdup_bytes, hd]

/-- Witness for C5 at a concrete payload and a preflight-sized buffer. -/
theorem C5_preflight_fill_agreement_witness :
    ([9, 9, 9] : List Nat).length = ([7, 8] : List Nat).length + 1 ∧
    ffi_strdup [7, 8] (some [9, 9, 9]) = (2, some [7, 8, 0]) ∧
    ffi_strdup_bytes [7, 8] (some [9, 9]) = (2, some [7, 8]) := by
  refine ⟨by decide, ?_, ?_⟩
  · exact (C5_preflight_fill_agreement [7, 8]).2.1 [9, 9, 9] (by decide)
  · exact (C5_preflight_fill_agreement [7, 8]).2.2.2.2 [9, 9] (by decide)

/-- C6: auto-allocation behaviour of the Buffer Transfer Protocol.  The
only failure is out-of-memory during auto-allocation, signalled by a
zero return with the inner pointer untouched; an empty text payload
still allocates one byte and yields a valid NUL-terminated empty
string; a zero-length raw payload performs no allocation and leaves the
destination unchanged. -/
theorem C6_autoalloc_behaviour (allocOk : Nat → Bool) (s src : List Nat) :
    (allocOk (s.length + 1) = false →
        ffi_strdup_auto allocOk s (some none) = (0, some none))
    ∧ (src ≠ [] → allocOk src.length = false →
        ffi_memdup allocOk src (some none) = (0, some none))
    ∧ (allocOk 1 = true →
        ffi_strdup_auto allocOk [] (some none) = (0, some (some [0])))
    ∧ ffi_memdup allocOk [] (some none) = (0, some none)
    ∧ (allocOk (s.length + 1) = true →
        ffi_strdup_auto allocOk s (some none) =
          (s.length, some (some (s ++ [0]))))
    ∧ (src ≠ [] → allocOk src.length = true →
        ffi_memdup allocOk src (some none) =
          (src.length, some (some src))) := by
  refine ⟨?_, ?_, ?_, rfl, ?_, ?_⟩
  · intro h
    simp [ffi_strdup_auto, h]
  · intro hsrc h
    have hlen : ¬src.length = 0 := by
      simpa [List.length_eq_zero] using hsrc
    simp [ffi_memdup, hlen, h]
  · intro h
    simp [ffi_strdup_auto, h]
  · intro h
    simp [ffi_strdup_auto, h]
  · intro hsrc h
    have hlen : ¬src.length = 0 := by
      simpa [List.length_eq_zero] using hsrc
    simp [ffi_memdup, hlen, h]

/-- Witness for C6 at concrete payloads and allocation oracles. -/
theorem C6_autoalloc_behaviour_witness :
    (fun _ : Nat => false) (([5] : List Nat).length + 1) = false ∧
    ffi_strdup_auto (fun _ => false) [5] (some none) = (0, some none) ∧
    ffi_strdup_auto (fun _ => true) [] (some none) = (0, some (some [0])) ∧
    ffi_memdup (fun _ => true) [] (some none) = (0, some none) ∧
    ffi_memdup (fun _ => true) [5] (some none) = (1, some (some [5])) := by
  refine ⟨rfl, ?_, ?_, ?_, ?_⟩
  · exact (C6_autoalloc_behaviour (fun _ => false) [5] [5]).1 rfl
  · exact (C6_autoalloc_behaviour (fun _ => true) [] []).2.2.1 rfl
  · exact (C6_autoalloc_behaviour (fun _ => true) [] []).2.2.2.1
  · exact (C6_autoalloc_behaviour (fun _ => true) [] [5]).2.2.2.2.2
      (by decide) rfl

/-- Decoding passes a non-backslash head character through unchanged. -/
theorem webifc_decode_text_cons_of_ne (c : Char) (l : List Char)
    (hc : c ≠ '\\') :
    webifc_decode_text (c :: l) = c :: webifc_decode_text l := by
  cases l with
  | nil => rfl
  | cons d l2 => simp [webifc_decode_text, hc]

/-- C7: text encode/decode round-trip.  For every input text, including
texts with control characters, backslashes and newlines, decoding the
encoded form returns the original text exactly. -/
theorem C7_encode_decode_roundtrip (T : List Char) :
    webifc_decode_text (webifc_encode_text T) = T := by
  induction T with
  | nil => rfl
  | cons c rest ih =>
      by_cases hb : c = '\\'
      · subst hb
        rw [webifc_encode_text, if_pos rfl]
        simp [webifc_decode_text, ih]
      · by_cases hn : c = '\n'
        · subst hn
          rw [webifc_encode_text, if_neg (by decide), if_pos rfl]
          simp [webifc_decode_text, ih]
        · rw [webifc_encode_text, if_neg hb, if_neg hn]
          rw [webifc_decode_text_cons_of_ne c _ hb, ih]

/-- C9: coordination matrix default.  A model that is open with no
geometry evaluated yet reports the 4×4 identity coordination matrix —
1 at row-major positions 0, 5, 10, 15 and 0 elsewhere — both through
`webifc_get_coordination_matrix` and through the wasm helper
`GetCoordinationMatrix`. -/
theorem C9_coordination_matrix_default (m : EngineModel)
    (hop : m.isOpen = true) (hpr : m.hasProcessor = true)
    (hfresh : m.geometryEvaluated = false) :
    webifc_get_coordination_matrix m true = (true, some identityMatrix16)
    ∧ GetCoordinationMatrix m = identityMatrix16
    ∧ identityMatrix16.length = 16
    ∧ (∀ i, i < 16 → identityMatrix16.getD i 0 =
        if i = 0 ∨ i = 5 ∨ i = 10 ∨ i = 15 then 1 else 0) := by
  refine ⟨?_, ?_, by decide, by decide⟩
  · simp [webifc_get_coordination_matrix, GetFlatCoordinationMatrix,
      hop, hpr, hfresh]
  · simp [GetCoordinationMatrix, GetFlatCoordinationMatrix, hop, hfresh]

/-- Witness for C9 at the concrete fresh open model. -/
theorem C9_coordination_matrix_default_witness :
    baseModel.isOpen = true ∧ baseModel.geometryEvaluated = false ∧
    webifc_get_coordination_matrix baseModel true =
      (true, some identityMatrix16) :=
  ⟨rfl, rfl, (C9_coordination_matrix_default baseModel rfl rfl rfl).1⟩

/-- C10: save-to-buffer is all-or-nothing.  Bytes are written only when
the whole serialized model fits in `maxLength`, in which case the exact
byte count is returned; a null buffer, a zero `maxLength`, a closed
handle, a serialization fault, or an oversized model all return 0 with
nothing written. -/
theorem C10_save_all_or_nothing (m : EngineModel) :
    (∀ maxLen order,
        webifc_save_step_to_memory m false maxLen order = (0, none))
    ∧ (∀ og order, webifc_save_step_to_memory m og 0 order = (0, none))
    ∧ (∀ maxLen order, m.isOpen = false →
        webifc_save_step_to_memory m true maxLen order = (0, none))
    ∧ (∀ maxLen order, m.saveFile order = .error () →
        webifc_save_step_to_memory m true maxLen order = (0, none))
    ∧ (∀ maxLen order bytes, m.saveFile order = .ok bytes →
        bytes.length > maxLen →
        webifc_save_step_to_memory m true maxLen order = (0, none))
    ∧ (∀ maxLen order bytes, m.isOpen = true → m.hasLoader = true →
        maxLen ≠ 0 → maxLen < U32 → m.saveFile order = .ok bytes →
        bytes.length ≤ maxLen →
        webifc_save_step_to_memory m true maxLen order =
          (bytes.length, some bytes)) := by
  refine ⟨?_, ?_, ?_, ?_, ?_, ?_⟩
  · intro maxLen order
    unfold webifc_save_step_to_memory
    rw [if_pos (Or.inl rfl)]
  · intro og order
    unfold webifc_save_step_to_memory
    rw [if_pos (Or.inr rfl)]
  · intro maxLen order hop
    simp [webifc_save_step_to_memory, hop]
  · intro maxLen order herr
    simp [webifc_save_step_to_memory, herr]
  · intro maxLen order bytes hok hgt
    simp [webifc_save_step_to_memory, hok, hgt]
  · intro maxLen order bytes hop hl hml hmlu hok hle
    have hmod : bytes.length % U32 = bytes.length :=
      Nat.mod_eq_of_lt (by omega)
    simp [webifc_save_step_to_memory, hop, hl, hml, hok,
      Nat.not_lt.mpr hle, hmod]

/-- Witness for C10 at the concrete model whose serialization is the
two-byte payload `[72, 73]`. -/
theorem C10_save_all_or_nothing_witness :
    baseModel.isOpen = true ∧ baseModel.hasLoader = true ∧
    baseModel.saveFile false = .ok [72, 73] ∧
    webifc_save_step_to_memory baseModel true 10 false =
      (2, some [72, 73]) ∧
    webifc_save_step_to_memory baseModel true 1 false = (0, none) ∧
    webifc_save_step_to_memory closedModel true 10 false = (0, none) := by
  refine ⟨rfl, rfl, rfl, ?_, ?_, ?_⟩
  · exact (C10_save_all_or_nothing baseModel).2.2.2.2.2 10 false [72, 73]
      rfl rfl (by decide) (by decide) rfl (by decide)
  · exact (C10_save_all_or_nothing baseModel).2.2.2.2.1 1 false [72, 73]
      rfl (by decide)
  · exact (C10_save_all_or_nothing closedModel).2.2.1 10 false rfl
